import Mathlib

/-!
Verification of the TramMate retrieval pipeline.

Shallow embedding of the core functions of the program:
  - `scripts/make_chunks.py` : `chunk_text` (the chunker loop);
  - `scripts/faq_router.py`  : `_load_faq_items`, `maybe_answer_faq`;
  - `scripts/retriever.py`   : `preprocess_query`, `_cached_vs`, `get_retriever`;
  - `app.py`                 : `format_docs`, the submitted-branch answer flow;
  - `scripts/rag_chain_ollama.py` : its separate `format_docs`.

Python strings are modelled as `List Char` (ASCII-faithful for the
operations the code uses: `strip`, `lower`, slicing, `in`, `replace`).
Python `int` parameters that the code may drive negative (`overlap`) are
`Int`; non-negative indices are `Nat`.  File I/O, the embedding model, the
FAISS library and the LLM are external collaborators and enter as
parameters.
-/

namespace TramMate

/-- Python whitespace test used by `str.strip` (ASCII subset: space, tab,
newline, carriage return, vertical tab, form feed). -/
def pyIsSpace (c : Char) : Bool :=
  decide (c.toNat = 32 ∨ c.toNat = 9 ∨ c.toNat = 10 ∨ c.toNat = 13 ∨ c.toNat = 11 ∨ c.toNat = 12)

/-- Python `str.lower` on one character (ASCII range, which is all the
data of the repository uses). -/
def pyLowerChar (c : Char) : Char :=
  if 65 ≤ c.toNat ∧ c.toNat ≤ 90 then Char.ofNat (c.toNat + 32) else c

/-- Python `str.lower`. -/
def pyLower (l : List Char) : List Char :=
  l.map pyLowerChar

/-- Python `str.strip` with no argument: removes leading and trailing
whitespace. -/
def pyStrip (l : List Char) : List Char :=
  (((l.dropWhile pyIsSpace).reverse.dropWhile pyIsSpace)).reverse

/-- One chunk emitted by `chunk_text` in `scripts/make_chunks.py`:
the dict with the stripped window text and the source in its metadata. -/
structure Chunk where
  text : List Char
  source : String
deriving DecidableEq, Repr

/-- The `while i < n` loop of `chunk_text` in `scripts/make_chunks.py`,
with explicit fuel because the Python loop need not terminate.  Each
emitted chunk is paired with the window start offset `i`.  The Python
update `i = max(i + size - overlap, 0)` is `((i + size : Int) - overlap).toNat`
(`Int.toNat` clamps negatives to 0 exactly like the `max`). -/
def chunkTextGo (text : List Char) (source : String) (size : Nat) (overlap : Int) :
    Nat → Nat → Option (List (Nat × Chunk))
  | 0, _ => none
  | fuel + 1, i =>
    let n := text.length
    if i < n then
      let j := min n (i + size)
      let piece := (text.drop i).take (j - i)
      let c : Chunk := ⟨pyStrip piece, source⟩
      if j = n then
        some [(i, c)]
      else
        match chunkTextGo text source size overlap fuel (((i + size : Int) - overlap).toNat) with
        | none => none
        | some rest => some ((i, c) :: rest)
    else
      some []

/-- `chunk_text` run from `i = 0`, keeping the window start offsets.  Fuel
`text.length + 1` suffices whenever the loop terminates, because a
terminating run strictly increases `i` each iteration; `none` therefore
means the Python loop has not finished within that many iterations. -/
def chunkTextOffsets (text : List Char) (source : String) (size : Nat) (overlap : Int) :
    Option (List (Nat × Chunk)) :=
  chunkTextGo text source size overlap (text.length + 1) 0

/-- `chunk_text(text, source, size, overlap)` from `scripts/make_chunks.py`:
the list of chunk dicts the function returns (offsets dropped). -/
def chunk_text (text : List Char) (source : String) (size : Nat) (overlap : Int) :
    Option (List Chunk) :=
  (chunkTextOffsets text source size overlap).map (List.map Prod.snd)

/-- Python `in` on strings: `hasSubstring text pat` is `pat in text`. -/
def hasSubstring : List Char → List Char → Bool
  | [], pat => pat.isEmpty
  | c :: t, pat => pat.isPrefixOf (c :: t) || hasSubstring t pat

/-- Python `str.replace(old, new)`, structurally recursive on a fuel
bound so that it evaluates by kernel reduction: at a position where the
non-empty pattern occurs, the span of the pattern is consumed and
replaced; otherwise one character is kept.  Each step consumes at least
one character, so fuel `text.length` suffices. -/
def replaceSubGo (pat rep : List Char) : Nat → List Char → List Char
  | _, [] => []
  | 0, text => text
  | fuel + 1, c :: t =>
    if pat ≠ [] ∧ pat.isPrefixOf (c :: t) then
      rep ++ replaceSubGo pat rep fuel (t.drop (pat.length - 1))
    else
      c :: replaceSubGo pat rep fuel t

/-- Python `str.replace(old, new)`: replaces every non-overlapping
occurrence left to right.  The flow only calls it with a non-empty `old`
(`preprocess_query` skips empty aliases); this model keeps the text
unchanged for an empty `old`. -/
def replaceSub (text pat rep : List Char) : List Char :=
  replaceSubGo pat rep text.length text

/-- `preprocess_query(q)` from `scripts/retriever.py`, with the parsed
alias map (`_load_aliases()`) as a parameter (file I/O is external; a
missing or malformed aliases file is the empty map).  A Python `None`
input is `none`. -/
def preprocess_query (aliasMap : List (List Char × List (List Char)))
    (q : Option (List Char)) : List Char :=
  let base := pyStrip (q.getD [])
  if base = [] then []
  else
    aliasMap.foldl
      (fun text p =>
        p.2.foldl
          (fun text a =>
            if a = [] then text
            else
              let aL := pyLower a
              if hasSubstring text aL then replaceSub text aL (pyLower p.1) else text)
          text)
      (pyLower base)

/-- One parsed row of `faq.json`: the values `_load_faq_items` reads with
`row.get("q")`, `row.get("a")` and `row.get("aliases")`, missing values
already read back as empty. -/
structure FaqRow where
  q : List Char
  a : List Char
  aliases : List (List Char)

/-- The body of the `for row in data` loop of `_load_faq_items` in
`scripts/faq_router.py`: rows with an empty stripped answer are dropped,
and the stripped question plus each alias becomes one lowered
`(variant, answer)` pair, empty variants skipped. -/
def loadFaqRow (row : FaqRow) : List (List Char × List Char) :=
  let q := pyStrip row.q
  let a := pyStrip row.a
  if a = [] then []
  else
    (q :: row.aliases).filterMap (fun al =>
      if pyStrip al = [] then none else some (pyLower (pyStrip al), a))

/-- `_load_faq_items()` with the parsed JSON rows as a parameter. -/
def loadFaqItems (rows : List FaqRow) : List (List Char × List Char) :=
  (rows.map loadFaqRow).flatten

/-- `rapidfuzz.process.extractOne(q, queries, scorer)`: the best
`(score, index)` pair, an earlier index winning ties; `none` on an empty
candidate list.  The scorer itself is the external rapidfuzz library and
is a parameter. -/
def extractOne (scorer : List Char → List Char → Nat) (q : List Char)
    (qs : List (List Char)) : Option (Nat × Nat) :=
  qs.enum.foldl
    (fun best p =>
      match best with
      | none => some (scorer q p.2, p.1)
      | some (bs, bi) =>
        if bs < scorer q p.2 then some (scorer q p.2, p.1) else some (bs, bi))
    none

/-- `maybe_answer_faq(query, threshold)` from `scripts/faq_router.py`.
The FAQ rows behind the module-level `_ITEMS` and the rapidfuzz scorer
are parameters; `_QUERIES` and `_ANSWERS` are the two projections of the
item list. -/
def maybe_answer_faq (rows : List FaqRow) (scorer : List Char → List Char → Nat)
    (query : Option (List Char)) (threshold : Nat) : Option (List Char) :=
  match query with
  | none => none
  | some query0 =>
    if query0 = [] then none
    else
      let items := loadFaqItems rows
      let q := pyLower (pyStrip query0)
      if q = [] ∨ items = [] then none
      else
        match items.find? (fun p => p.1 == q) with
        | some p => some p.2
        | none =>
          match extractOne scorer q (items.map Prod.fst) with
          | none => none
          | some si =>
            if threshold ≤ si.1 then some ((items.map Prod.snd).getD si.2 []) else none

/-- A retrieved LangChain document: page content plus the optional
`source` entry of its metadata. -/
structure Doc where
  pageContent : List Char
  source : Option (List Char)
deriving DecidableEq, Repr

/-- `format_docs` defined inside `get_chain` in `app.py`: placeholder on
empty input, otherwise `page_content`, newline, bracketed source
(`"unknown"` when missing), documents joined by blank lines. -/
def format_docs_app (docs : List Doc) : List Char :=
  if docs = [] then "[no context retrieved]".toList
  else
    List.intercalate "\n\n".toList
      (docs.map (fun d =>
        d.pageContent ++ '\n' :: '[' :: (d.source.getD "unknown".toList) ++ [']']))

/-- `format_docs` in `scripts/rag_chain_ollama.py`: same per-document
rendering, but joined by single newlines and with no empty-input guard. -/
def format_docs_ollama (docs : List Doc) : List Char :=
  List.intercalate "\n".toList
    (docs.map (fun d =>
      d.pageContent ++ '\n' :: '[' :: (d.source.getD "unknown".toList) ++ [']']))

/-- The message of the `FileNotFoundError` raised by `_cached_vs` in
`scripts/retriever.py` when the FAISS directory is missing (the path is
shown relative to the repository root here). -/
def vsNotFoundMsg : List Char :=
  ("FAISS index not found at data/kb/vectorstore/faiss_index. " ++
    "Build it first with: scripts/make_chunks.py then scripts/build_faiss.py").toList

/-- `_cached_vs()` from `scripts/retriever.py`: raises when the index
directory is missing, otherwise the loaded store (opaque payload here;
whether the directory exists is the `indexOnDisk` parameter). -/
def cachedVs (indexOnDisk : Bool) : Except (List Char) Unit :=
  if !indexOnDisk then Except.error vsNotFoundMsg else Except.ok ()

/-- `get_vectorstore()` from `scripts/retriever.py`. -/
def get_vectorstore (indexOnDisk : Bool) : Except (List Char) Unit :=
  cachedVs indexOnDisk

/-- The `search_kwargs` (plus `search_type`) that `get_retriever` hands to
`vs.as_retriever`. -/
structure SearchCfg where
  searchType : List Char
  k : Nat
  fetchK : Nat
  lambdaMult : ℚ
deriving DecidableEq, Repr

/-- `get_retriever(k, lambda_mult)` from `scripts/retriever.py`: loads the
vector store (propagating its error) and configures MMR search with the
fixed literal `fetch_k` of 35. -/
def get_retriever (indexOnDisk : Bool) (k : Nat) (lambdaMult : ℚ) :
    Except (List Char) SearchCfg :=
  (get_vectorstore indexOnDisk).map (fun _ => ⟨"mmr".toList, k, 35, lambdaMult⟩)

/-- Observable steps of the submitted-branch answer flow in `app.py`. -/
inductive Event
  | faqChecked (q : List Char)
  | retrieved (q : List Char)
  | streamTried
  | invokeTried
deriving DecidableEq, Repr

/-- Terminal outcome of the submitted branch of `app.py`. -/
inductive Outcome
  | warnedEmpty
  | faqAnswer (a : List Char)
  | initError (e : List Char)
  | noContext
  | streamed (t : List Char)
  | fallbackAnswer (t : List Char)
  | fallbackFailed (e2 : List Char)
deriving DecidableEq, Repr

/-- External collaborators and request parameters of one submitted query
in `app.py`: the parsed alias map and FAQ rows, whether the FAISS
directory exists, the vector search, the outcomes of the streaming and
the non-streaming generation calls, and the sidebar settings. -/
structure FlowEnv where
  aliasMap : List (List Char × List (List Char))
  faqRows : List FaqRow
  scorer : List Char → List Char → Nat
  indexOnDisk : Bool
  retrieve : List Char → List Doc
  streamResult : Except (List Char) (List Char)
  invokeResult : Except (List Char) (List Char)
  requireCtx : Bool
  topK : Nat
  mmrLambda : ℚ

/-- The `if submitted:` branch of `app.py` (lines 144-189): preprocess,
FAQ fast-path (`if faq_ans:` is Python truthiness, so an empty answer
falls through), retriever initialisation with its error surfaced,
retrieval, the require-context gate, then streaming with exactly one
non-streaming fallback whose exception alone is surfaced (the streaming
exception is caught by a bare `except Exception:`).  Returns the event
trace paired with the terminal outcome. -/
def answerFlow (env : FlowEnv) (query : Option (List Char)) : List Event × Outcome :=
  let qPre := preprocess_query env.aliasMap query
  if pyStrip qPre = [] then ([], Outcome.warnedEmpty)
  else
    let faqAns := (maybe_answer_faq env.faqRows env.scorer (some qPre) 90).getD []
    if faqAns ≠ [] then ([Event.faqChecked qPre], Outcome.faqAnswer faqAns)
    else
      match get_retriever env.indexOnDisk env.topK env.mmrLambda with
      | Except.error e => ([Event.faqChecked qPre], Outcome.initError e)
      | Except.ok _ =>
        let docs := env.retrieve qPre
        let ev0 := [Event.faqChecked qPre, Event.retrieved qPre]
        if env.requireCtx ∧ docs = [] then (ev0, Outcome.noContext)
        else
          match env.streamResult with
          | Except.ok t => (ev0 ++ [Event.streamTried], Outcome.streamed t)
          | Except.error _ =>
            match env.invokeResult with
            | Except.ok t =>
              (ev0 ++ [Event.streamTried, Event.invokeTried], Outcome.fallbackAnswer t)
            | Except.error e2 =>
              (ev0 ++ [Event.streamTried, Event.invokeTried], Outcome.fallbackFailed e2)

/-- Error details the submitted branch surfaces via `st.exception`. -/
def surfacedErrorDetails : Outcome → List (List Char)
  | Outcome.initError e => [e]
  | Outcome.fallbackFailed e => [e]
  | _ => []

/-! Helper lemmas about the Python string primitives. -/

theorem dropWhile_dropWhile (p : Char → Bool) (l : List Char) :
    (l.dropWhile p).dropWhile p = l.dropWhile p := by
  induction l with
  | nil => rfl
  | cons a t ih =>
    by_cases h : p a
    · simp [List.dropWhile_cons, h, ih]
    · simp [List.dropWhile_cons, h]

theorem dropWhile_append_self (p : Char → Bool) (x y : List Char)
    (h : (x ++ y).dropWhile p = x ++ y) : x.dropWhile p = x := by
  cases x with
  | nil => rfl
  | cons b t =>
    by_cases hb : p b
    · exfalso
      have h1 : ((b :: t) ++ y).dropWhile p = (t ++ y).dropWhile p := by
        simp [List.dropWhile_cons, hb]
      have h2 : ((t ++ y).dropWhile p).length ≤ (t ++ y).length :=
        (List.dropWhile_suffix p).sublist.length_le
      rw [h] at h1
      have h3 : (b :: t ++ y).length = ((t ++ y).dropWhile p).length := by rw [← h1]
      simp [List.length_append] at h3 h2
      omega
    · simp [List.dropWhile_cons, hb]

theorem pyStrip_idem (l : List Char) : pyStrip (pyStrip l) = pyStrip l := by
  unfold pyStrip
  have hA : (l.dropWhile pyIsSpace).dropWhile pyIsSpace = l.dropWhile pyIsSpace :=
    dropWhile_dropWhile pyIsSpace l
  obtain ⟨s, hs⟩ : ((l.dropWhile pyIsSpace).reverse.dropWhile pyIsSpace) <:+
      (l.dropWhile pyIsSpace).reverse := List.dropWhile_suffix pyIsSpace
  set A := l.dropWhile pyIsSpace with hAdef
  set D := A.reverse.dropWhile pyIsSpace with hDdef
  -- A = D.reverse ++ s.reverse
  have hA2 : A = D.reverse ++ s.reverse := by
    have := congrArg List.reverse hs
    simpa using this.symm
  have hB : D.reverse.dropWhile pyIsSpace = D.reverse := by
    apply dropWhile_append_self pyIsSpace D.reverse s.reverse
    rw [← hA2]
    exact hA
  rw [hB]
  have hD2 : D.reverse.reverse = D := by simp
  rw [hD2, hDdef, dropWhile_dropWhile]

theorem toNat_ofNat_valid (n : Nat) (h : n.isValidChar) : (Char.ofNat n).toNat = n := by
  unfold Char.ofNat
  simp [h]
  rfl

theorem pyLowerChar_toNat (c : Char) (h : 65 ≤ c.toNat ∧ c.toNat ≤ 90) :
    (pyLowerChar c).toNat = c.toNat + 32 := by
  unfold pyLowerChar
  rw [if_pos h]
  exact toNat_ofNat_valid _ (Or.inl (by omega))

theorem pyLowerChar_eq_self (c : Char) (h : ¬ (65 ≤ c.toNat ∧ c.toNat ≤ 90)) :
    pyLowerChar c = c := by
  unfold pyLowerChar
  rw [if_neg h]

theorem pyIsSpace_pyLowerChar (c : Char) : pyIsSpace (pyLowerChar c) = pyIsSpace c := by
  by_cases h : 65 ≤ c.toNat ∧ c.toNat ≤ 90
  · have h2 := pyLowerChar_toNat c h
    unfold pyIsSpace
    rw [h2, decide_eq_decide]
    omega
  · rw [pyLowerChar_eq_self c h]

theorem pyLowerChar_idem (c : Char) : pyLowerChar (pyLowerChar c) = pyLowerChar c := by
  by_cases h : 65 ≤ c.toNat ∧ c.toNat ≤ 90
  · have h2 := pyLowerChar_toNat c h
    apply pyLowerChar_eq_self
    omega
  · simp [pyLowerChar_eq_self c h]

theorem pyLower_idem (l : List Char) : pyLower (pyLower l) = pyLower l := by
  unfold pyLower
  rw [List.map_map]
  congr 1
  funext c
  exact pyLowerChar_idem c

theorem pyStrip_pyLower (l : List Char) : pyStrip (pyLower l) = pyLower (pyStrip l) := by
  have hpf : (pyIsSpace ∘ pyLowerChar) = pyIsSpace := funext pyIsSpace_pyLowerChar
  unfold pyStrip pyLower
  rw [List.dropWhile_map, hpf, ← List.map_reverse, List.dropWhile_map, hpf, ← List.map_reverse]

theorem pyStrip_length_le (l : List Char) : (pyStrip l).length ≤ l.length := by
  unfold pyStrip
  have a1 : ((l.dropWhile pyIsSpace)).length ≤ l.length :=
    (List.dropWhile_suffix pyIsSpace).sublist.length_le
  have a2 : (((l.dropWhile pyIsSpace).reverse.dropWhile pyIsSpace)).length ≤
      ((l.dropWhile pyIsSpace).reverse).length :=
    (List.dropWhile_suffix pyIsSpace).sublist.length_le
  simp only [List.length_reverse] at *
  omega

theorem chunkTextGo_valid (text : List Char) (source : String) (size : Nat) (overlap : Int)
    (ho : 0 ≤ overlap) (hlt : overlap < (size : Int)) :
    ∀ fuel i, text.length - i < fuel → i < text.length →
      ∃ l, chunkTextGo text source size overlap fuel i = some l ∧
        l ≠ [] ∧
        (∀ p ∈ l.head?, p.1 = i) ∧
        List.Chain' (fun p q : Nat × Chunk => q.1 = p.1 + (size - overlap.toNat)) l ∧
        (∀ p ∈ l.dropLast, p.1 + size ≤ text.length) ∧
        (∀ p ∈ l, p.2.text.length ≤ size) := by
  have hcast : (overlap.toNat : Int) = overlap := Int.toNat_of_nonneg ho
  have hole : overlap.toNat < size := by omega
  intro fuel
  induction fuel with
  | zero => intro i h1 h2; omega
  | succ f ih =>
    intro i h1 h2
    by_cases hA : text.length ≤ i + size
    · -- last window: j = n
      have hj : min text.length (i + size) = text.length := by omega
      refine ⟨[(i, ⟨pyStrip ((text.drop i).take (min text.length (i + size) - i)), source⟩)], ?_, ?_, ?_, ?_, ?_, ?_⟩
      · simp only [chunkTextGo]
        rw [if_pos h2, if_pos hj]
      · simp
      · simp
      · simp
      · simp
      · intro p hp
        simp at hp
        subst hp
        have hle : (pyStrip ((text.drop i).take (min text.length (i + size) - i))).length ≤
            ((text.drop i).take (min text.length (i + size) - i)).length := pyStrip_length_le _
        simp [List.length_take, List.length_drop] at hle ⊢
        omega
    · -- interior window: j = i + size < n, recurse
      push_neg at hA
      have hj : min text.length (i + size) = i + size := by omega
      have harg : (((i : Int) + size - overlap)).toNat = i + size - overlap.toNat := by omega
      have hrec := ih (i + size - overlap.toNat) (by omega) (by omega)
      obtain ⟨l2, hgo, hne, hhead, hchain, hlast, hlen⟩ := hrec
      refine ⟨(i, ⟨pyStrip ((text.drop i).take (min text.length (i + size) - i)), source⟩) :: l2, ?_, ?_, ?_, ?_, ?_, ?_⟩
      · simp only [chunkTextGo]
        rw [if_pos h2]
        rw [if_neg (by omega : ¬ min text.length (i + size) = text.length)]
        rw [harg, hgo]
      · simp
      · simp
      · rw [List.chain'_cons']
        constructor
        · intro y hy
          have := hhead y hy
          omega
        · exact hchain
      · intro p hp
        rw [List.dropLast_cons_of_ne_nil hne] at hp
        rcases List.mem_cons.mp hp with h | h
        · subst h; omega
        · exact hlast p h
      · intro p hp
        rcases List.mem_cons.mp hp with h | h
        · subst h
          have hle : (pyStrip ((text.drop i).take (min text.length (i + size) - i))).length ≤
              ((text.drop i).take (min text.length (i + size) - i)).length := pyStrip_length_le _
          simp [List.length_take, List.length_drop] at hle ⊢
          omega
        · exact hlen p h

theorem chunkTextGo_stripped (text : List Char) (source : String) (size : Nat) (overlap : Int) :
    ∀ fuel i l, chunkTextGo text source size overlap fuel i = some l →
      ∀ p ∈ l, pyStrip p.2.text = p.2.text := by
  intro fuel
  induction fuel with
  | zero => intro i l h; simp [chunkTextGo] at h
  | succ f ih =>
    intro i l h
    simp only [chunkTextGo] at h
    by_cases h2 : i < text.length
    · rw [if_pos h2] at h
      by_cases hj : min text.length (i + size) = text.length
      · rw [if_pos hj] at h
        have hl : l = [(i, ⟨pyStrip ((text.drop i).take (min text.length (i + size) - i)), source⟩)] := by
          injection h with h
          exact h.symm
        subst hl
        intro p hp
        simp at hp
        subst hp
        exact pyStrip_idem _
      · rw [if_neg hj] at h
        cases hgo : chunkTextGo text source size overlap f (((i : Int) + size - overlap)).toNat with
        | none => rw [hgo] at h; cases h
        | some rest =>
          rw [hgo] at h
          have hl : l = (i, ⟨pyStrip ((text.drop i).take (min text.length (i + size) - i)), source⟩) :: rest := by
            injection h with h
            exact h.symm
          subst hl
          intro p hp
          rcases List.mem_cons.mp hp with hc | hc
          · subst hc; exact pyStrip_idem _
          · exact ih _ _ hgo p hc
    · rw [if_neg h2] at h
      have hl : l = [] := by injection h with h; exact h.symm
      subst hl
      intro p hp
      cases hp

/-- Claim C1 (code_bug evidence): the claim says `chunk_text` terminates for
every text, every `size > 0` and every integer `overlap` because the
advance is guarded by `max(size - overlap, 1)`.  The guard in the code is
`max(i + size - overlap, 0)`: with `size = 1`, `overlap = 1` and the
two-character text "ab" the start offset stays 0 forever, so the loop
never finishes under any fuel bound and `chunk_text` yields no result. -/
theorem chunk_text_diverges_on_overlap_eq_size :
    (∀ fuel, chunkTextGo ['a', 'b'] "s" 1 1 fuel 0 = none) ∧
    chunk_text ['a', 'b'] "s" 1 1 = none := by
  constructor
  · intro fuel
    induction fuel with
    | zero => rfl
    | succ f ih => simp [chunkTextGo, ih]
  · decide

/-- Claim C2 (code_bug evidence): the claim says a call with
`overlap ≥ size` fails with an `InvalidConfig` error and does not return a
chunk sequence.  The code has no such guard: with `size = 1`,
`overlap = 2` and text "a" it happily returns the one-chunk sequence. -/
theorem chunk_text_no_invalid_config_error :
    chunk_text ['a'] "s" 1 2 = some [⟨['a'], "s"⟩] := by decide

/-- Claim C9 (counterexample): the claim says every chunk except the last
has text of length exactly `size`.  Because the code strips each window
(`piece.strip()`), the first chunk of `chunk_text("ab ab", s, 3, 0)` is
"ab" of length 2, not 3. -/
theorem chunk_text_size_claim_false :
    ¬ (∀ c ∈ ((chunk_text ("ab ab".toList) "s" 3 0).getD []).dropLast,
        c.text.length = 3) := by decide

/-- Claim C9 (amended): for `0 ≤ overlap < size`, `chunk_text` terminates;
source offsets of consecutive chunks differ by exactly `size - overlap`,
every window before the last spans exactly `size` source characters
(`offset + size ≤ length`), and the stripped text of each chunk has length at
most `size` (equality can fail because of stripping). -/
theorem chunk_text_valid_shape (text : List Char) (source : String) (size : Nat) (overlap : Int)
    (ho : 0 ≤ overlap) (hlt : overlap < (size : Int)) :
    ∃ l, chunkTextOffsets text source size overlap = some l ∧
      chunk_text text source size overlap = some (l.map Prod.snd) ∧
      List.Chain' (fun p q : Nat × Chunk => q.1 = p.1 + (size - overlap.toNat)) l ∧
      (∀ p ∈ l.dropLast, p.1 + size ≤ text.length) ∧
      (∀ p ∈ l, p.2.text.length ≤ size) := by
  by_cases hn : text.length = 0
  · refine ⟨[], ?_, ?_, ?_, ?_, ?_⟩
    · simp [chunkTextOffsets, chunkTextGo, hn]
    · simp [chunk_text, chunkTextOffsets, chunkTextGo, hn]
    · simp
    · simp
    · simp
  · obtain ⟨l, hgo, hne, hhead, hchain, hlast, hlen⟩ :=
      chunkTextGo_valid text source size overlap ho hlt (text.length + 1) 0 (by omega) (by omega)
    have hoff : chunkTextOffsets text source size overlap = some l := hgo
    exact ⟨l, hoff, by simp [chunk_text, hoff], hchain, hlast, hlen⟩

/-- Witness for the amended C9 theorem at text "abcde", size 2, overlap 1. -/
theorem chunk_text_valid_shape_witness :
    ∃ l, chunkTextOffsets ("abcde".toList) "s" 2 1 = some l ∧
      chunk_text ("abcde".toList) "s" 2 1 = some (l.map Prod.snd) ∧
      List.Chain' (fun p q : Nat × Chunk => q.1 = p.1 + (2 - (1 : Int).toNat)) l ∧
      (∀ p ∈ l.dropLast, p.1 + 2 ≤ ("abcde".toList).length) ∧
      (∀ p ∈ l, p.2.text.length ≤ 2) :=
  chunk_text_valid_shape ("abcde".toList) "s" 2 1 (by decide) (by decide)

/-- Claim C10: every chunk emitted by `chunk_text` has whitespace-stripped
text: stripping the text of a chunk again changes nothing. -/
theorem chunk_text_stripped (text : List Char) (source : String) (size : Nat) (overlap : Int)
    (l : List Chunk) (h : chunk_text text source size overlap = some l) :
    ∀ c ∈ l, pyStrip c.text = c.text := by
  unfold chunk_text at h
  cases hgo : chunkTextOffsets text source size overlap with
  | none => rw [hgo] at h; cases h
  | some l0 =>
    rw [hgo] at h
    have hl : l = l0.map Prod.snd := by
      injection h with h
      exact h.symm
    subst hl
    intro c hc
    rw [List.mem_map] at hc
    obtain ⟨p, hp, rfl⟩ := hc
    exact chunkTextGo_stripped text source size overlap (text.length + 1) 0 l0 hgo p hp

/-- Witness for the C10 theorem at text "a", size 2, overlap 0. -/
theorem chunk_text_stripped_witness :
    pyStrip (Chunk.mk ['a'] "s").text = (Chunk.mk ['a'] "s").text :=
  chunk_text_stripped ("a".toList) "s" 2 0 [⟨['a'], "s"⟩] (by decide) ⟨['a'], "s"⟩ (by decide)

theorem mem_loadFaqItems (rows : List FaqRow) (v a : List Char)
    (h : (v, a) ∈ loadFaqItems rows) :
    v ≠ [] ∧ pyLower (pyStrip v) = v := by
  unfold loadFaqItems at h
  rw [List.mem_flatten] at h
  obtain ⟨l, hl, hv⟩ := h
  rw [List.mem_map] at hl
  obtain ⟨row, _, rfl⟩ := hl
  unfold loadFaqRow at hv
  by_cases ha : pyStrip row.a = []
  · simp [ha] at hv
  · rw [if_neg ha] at hv
    rw [List.mem_filterMap] at hv
    obtain ⟨al, _, hal⟩ := hv
    by_cases hale : pyStrip al = []
    · simp [hale] at hal
    · rw [if_neg hale] at hal
      have hv2 : pyLower (pyStrip al) = v := by
        injection hal with hal
        exact congrArg Prod.fst hal
      constructor
      · rw [← hv2]
        intro hcon
        apply hale
        have := congrArg List.length hcon
        simp [pyLower] at this
        exact this
      · rw [← hv2, pyStrip_pyLower, pyStrip_idem, pyLower_idem]

/-- Claim C6: for every question variant stored in the FAQ table (the
canonical question or any alias of an entry with a non-empty answer) and
for every threshold, `maybe_answer_faq` returns the answer of that entry, ties
between identical stored variants broken by the first-encountered variant
in table order (the hypothesis states that `(v, a)` is the first item
whose variant is `v`). -/
theorem faq_exact_match (rows : List FaqRow) (scorer : List Char → List Char → Nat)
    (v a : List Char) (t : Nat)
    (h : (loadFaqItems rows).find? (fun p => p.1 == v) = some (v, a)) :
    maybe_answer_faq rows scorer (some v) t = some a := by
  have hmem := List.mem_of_find?_eq_some h
  obtain ⟨hne, hfix⟩ := mem_loadFaqItems rows v a hmem
  have hitems : loadFaqItems rows ≠ [] := List.ne_nil_of_mem hmem
  simp only [maybe_answer_faq]
  rw [if_neg hne, hfix]
  rw [if_neg (by push_neg; exact ⟨hne, hitems⟩)]
  rw [h]

/-- Witness for the C6 theorem: a one-row FAQ table, matched on the stored
lower-cased canonical question at threshold 42 with a constant scorer. -/
theorem faq_exact_match_witness :
    maybe_answer_faq
      [⟨"Is the City Circle Tram free?".toList, "Yes, route 35 is free.".toList,
        ["city circle free".toList]⟩]
      (fun _ _ => 0) (some ("is the city circle tram free?".toList)) 42 =
      some ("Yes, route 35 is free.".toList) :=
  faq_exact_match _ (fun _ _ => 0) _ _ 42 (by decide)

/-- Claim C3 (counterexample): the claim says the FAQ Matcher is applied
to the raw user query first and the Alias Normalizer runs only after an
FAQ miss.  In `app.py` the submitted query is normalized first
(`q_pre = preprocess_query(query)`) and the FAQ check receives `q_pre`:
with an alias map sending "ccl" to "city circle" and the raw query
"Is CCL free?", the FAQ check runs on "is city circle free?", not on the
raw query. -/
theorem faq_checked_on_raw_query_false :
    ((answerFlow
        ⟨[("city circle".toList, ["ccl".toList])],
         [⟨"Is city circle free?".toList, "Yes.".toList, []⟩],
         fun _ _ => 0, true, fun _ => [], Except.ok ("x".toList), Except.ok ("x".toList),
         false, 6, 0⟩
        (some ("Is CCL free?".toList))).1 =
      [Event.faqChecked ("is city circle free?".toList)]) ∧
    ("is city circle free?".toList ≠ "Is CCL free?".toList) := by decide

/-- Claim C3 (amended): for every submitted query that passes the
emptiness check, the Alias Normalizer runs first and the FAQ matcher is
applied to the normalized query `preprocess_query(query)`; on an FAQ hit
the flow short-circuits: the trace is exactly the one FAQ-check event on
the normalized query and the outcome is the FAQ answer, so retrieval and
generation are skipped. -/
theorem faq_check_after_normalization (env : FlowEnv) (query : Option (List Char))
    (a : List Char)
    (hq : pyStrip (preprocess_query env.aliasMap query) ≠ [])
    (hfa : (maybe_answer_faq env.faqRows env.scorer
      (some (preprocess_query env.aliasMap query)) 90).getD [] = a)
    (ha : a ≠ []) :
    answerFlow env query =
      ([Event.faqChecked (preprocess_query env.aliasMap query)], Outcome.faqAnswer a) := by
  unfold answerFlow
  rw [if_neg hq]
  simp only [hfa]
  rw [if_pos ha]

/-- Witness for the amended C3 theorem: a one-entry FAQ table hit by the
normalized form of "Hello". -/
theorem faq_check_after_normalization_witness :
    answerFlow
      ⟨[], [⟨"hello".toList, "Hi there.".toList, []⟩], fun _ _ => 0, true,
       fun _ => [], Except.ok ("x".toList), Except.ok ("x".toList), false, 6, 0⟩
      (some ("Hello".toList)) =
      ([Event.faqChecked ("hello".toList)], Outcome.faqAnswer ("Hi there.".toList)) :=
  faq_check_after_normalization _ _ ("Hi there.".toList) (by decide) (by decide) (by decide)

/-- Claim C4 (counterexample): the claim says that when the non-streaming
fallback also fails, the failure is surfaced with the original streaming
exception preserved for diagnostics.  The code catches the streaming
exception with a bare `except Exception:` and surfaces only the fallback
exception `e2`: with streaming detail "d1" and fallback detail "d2", the
surfaced error details are exactly ["d2"] and "d1" is lost. -/
theorem stream_detail_not_preserved :
    ((answerFlow
        ⟨[], [], fun _ _ => 0, true, fun _ => [⟨"c".toList, none⟩],
         Except.error ("d1".toList), Except.error ("d2".toList), false, 6, 0⟩
        (some ("q".toList))).2 = Outcome.fallbackFailed ("d2".toList)) ∧
    ("d1".toList ∉ surfacedErrorDetails
      (answerFlow
        ⟨[], [], fun _ _ => 0, true, fun _ => [⟨"c".toList, none⟩],
         Except.error ("d1".toList), Except.error ("d2".toList), false, 6, 0⟩
        (some ("q".toList))).2) := by decide

/-- Claim C4 (amended): when the streaming call fails, the orchestrator
makes exactly one fallback attempt with the non-streaming call: the event
trace ends with exactly one `streamTried` then one `invokeTried`; if the
fallback succeeds its text is the
answer, and if it also fails the failure is terminal and surfaces exactly
the fallback exception (the original streaming exception is not
preserved). -/
theorem stream_fallback_once (env : FlowEnv) (query : Option (List Char)) (e1 : List Char)
    (hq : pyStrip (preprocess_query env.aliasMap query) ≠ [])
    (hfaq : (maybe_answer_faq env.faqRows env.scorer
      (some (preprocess_query env.aliasMap query)) 90).getD [] = [])
    (hidx : env.indexOnDisk = true)
    (hctx : ¬ (env.requireCtx = true ∧ env.retrieve (preprocess_query env.aliasMap query) = []))
    (hs : env.streamResult = Except.error e1) :
    ((answerFlow env query).1 =
      [Event.faqChecked (preprocess_query env.aliasMap query),
       Event.retrieved (preprocess_query env.aliasMap query),
       Event.streamTried, Event.invokeTried]) ∧
    (∀ e2, env.invokeResult = Except.error e2 →
      (answerFlow env query).2 = Outcome.fallbackFailed e2 ∧
      surfacedErrorDetails (answerFlow env query).2 = [e2]) ∧
    (∀ t, env.invokeResult = Except.ok t →
      (answerFlow env query).2 = Outcome.fallbackAnswer t) := by
  have hr : get_retriever env.indexOnDisk env.topK env.mmrLambda =
      Except.ok ⟨"mmr".toList, env.topK, 35, env.mmrLambda⟩ := by
    rw [hidx]; rfl
  unfold answerFlow
  rw [if_neg hq]
  simp only [hfaq]
  rw [if_neg (by simp : ¬ (([] : List Char) ≠ []))]
  rw [hr]
  rw [if_neg hctx]
  rw [hs]
  refine ⟨?_, ?_, ?_⟩
  · cases hi : env.invokeResult with
    | error e2 => rfl
    | ok t => rfl
  · intro e2 hh
    rw [hh]
    exact ⟨rfl, rfl⟩
  · intro t hh
    rw [hh]

/-- Witness for the amended C4 theorem: both generation calls fail with
distinct details on a one-document retrieval. -/
theorem stream_fallback_once_witness :
    ((answerFlow
        ⟨[], [], fun _ _ => 0, true, fun _ => [⟨"c".toList, none⟩],
         Except.error ("d1".toList), Except.error ("d2".toList), false, 6, 0⟩
        (some ("hi".toList))).1 =
      [Event.faqChecked ("hi".toList), Event.retrieved ("hi".toList),
       Event.streamTried, Event.invokeTried]) ∧
    (∀ e2, (Except.error ("d2".toList) : Except (List Char) (List Char)) = Except.error e2 →
      (answerFlow
        ⟨[], [], fun _ _ => 0, true, fun _ => [⟨"c".toList, none⟩],
         Except.error ("d1".toList), Except.error ("d2".toList), false, 6, 0⟩
        (some ("hi".toList))).2 = Outcome.fallbackFailed e2 ∧
      surfacedErrorDetails
        (answerFlow
          ⟨[], [], fun _ _ => 0, true, fun _ => [⟨"c".toList, none⟩],
           Except.error ("d1".toList), Except.error ("d2".toList), false, 6, 0⟩
          (some ("hi".toList))).2 = [e2]) ∧
    (∀ t, (Except.error ("d2".toList) : Except (List Char) (List Char)) = Except.ok t →
      (answerFlow
        ⟨[], [], fun _ _ => 0, true, fun _ => [⟨"c".toList, none⟩],
         Except.error ("d1".toList), Except.error ("d2".toList), false, 6, 0⟩
        (some ("hi".toList))).2 = Outcome.fallbackAnswer t) :=
  stream_fallback_once _ (some ("hi".toList)) ("d1".toList)
    (by decide) (by decide) rfl (by simp) rfl

/-- Claim C7: when the FAISS directory is missing at serving time,
retriever initialisation fails with the `FileNotFoundError` whose message
carries the rebuild instructions, the flow surfaces exactly that error,
and no retrieval happens for the request. -/
theorem index_missing_surfaced (env : FlowEnv) (query : Option (List Char))
    (hq : pyStrip (preprocess_query env.aliasMap query) ≠ [])
    (hfaq : (maybe_answer_faq env.faqRows env.scorer
      (some (preprocess_query env.aliasMap query)) 90).getD [] = [])
    (hidx : env.indexOnDisk = false) :
    (answerFlow env query).2 = Outcome.initError vsNotFoundMsg ∧
    surfacedErrorDetails (answerFlow env query).2 = [vsNotFoundMsg] ∧
    hasSubstring vsNotFoundMsg
      ("Build it first with: scripts/make_chunks.py then scripts/build_faiss.py".toList) = true ∧
    (∀ q, Event.retrieved q ∉ (answerFlow env query).1) := by
  have hr : get_retriever env.indexOnDisk env.topK env.mmrLambda =
      Except.error vsNotFoundMsg := by
    rw [hidx]; rfl
  unfold answerFlow
  rw [if_neg hq]
  simp only [hfaq]
  rw [if_neg (by simp : ¬ (([] : List Char) ≠ []))]
  rw [hr]
  refine ⟨rfl, rfl, by decide, ?_⟩
  intro q hmem
  simp at hmem

/-- Witness for the C7 theorem: empty FAQ table, missing index, query
"hello". -/
theorem index_missing_surfaced_witness :
    (answerFlow
      ⟨[], [], fun _ _ => 0, false, fun _ => [], Except.ok ("x".toList),
       Except.ok ("x".toList), false, 6, 0⟩
      (some ("hello".toList))).2 = Outcome.initError vsNotFoundMsg ∧
    surfacedErrorDetails
      (answerFlow
        ⟨[], [], fun _ _ => 0, false, fun _ => [], Except.ok ("x".toList),
         Except.ok ("x".toList), false, 6, 0⟩
        (some ("hello".toList))).2 = [vsNotFoundMsg] ∧
    hasSubstring vsNotFoundMsg
      ("Build it first with: scripts/make_chunks.py then scripts/build_faiss.py".toList) = true ∧
    (∀ q, Event.retrieved q ∉
      (answerFlow
        ⟨[], [], fun _ _ => 0, false, fun _ => [], Except.ok ("x".toList),
         Except.ok ("x".toList), false, 6, 0⟩
        (some ("hello".toList))).1) :=
  index_missing_surfaced _ (some ("hello".toList)) (by decide) (by decide) rfl

/-- Claim C5 (counterexample): the claim says the placeholder is returned
at every point where retrieved chunks are formatted.  The `format_docs`
in `scripts/rag_chain_ollama.py` has no empty-input guard: on the empty
document list it returns the empty string, not the placeholder. -/
theorem format_docs_ollama_empty_cex :
    format_docs_ollama [] = [] ∧
    format_docs_ollama [] ≠ "[no context retrieved]".toList := by decide

/-- Claim C5 (amended): the `format_docs` inside `get_chain` in `app.py`
returns exactly the placeholder token on the empty document list and
never returns the empty string on any input; the separate `format_docs`
in `scripts/rag_chain_ollama.py` lacks the guard and returns the empty
string on empty input. -/
theorem format_docs_app_placeholder :
    format_docs_app [] = "[no context retrieved]".toList ∧
    (∀ docs, format_docs_app docs ≠ []) ∧
    format_docs_ollama [] = [] := by
  refine ⟨by decide, ?_, by decide⟩
  intro docs
  cases docs with
  | nil => decide
  | cons d ds =>
    unfold format_docs_app
    rw [if_neg (by simp)]
    cases ds with
    | nil =>
      simp [List.intercalate]
    | cons d2 t =>
      have hstep : List.intercalate ("\n\n".toList)
          ((d :: d2 :: t).map (fun d =>
            d.pageContent ++ '\n' :: '[' :: (d.source.getD "unknown".toList) ++ [']'])) =
          (d.pageContent ++ '\n' :: '[' :: (d.source.getD "unknown".toList) ++ [']']) ++
            ("\n\n".toList) ++
            List.intercalate ("\n\n".toList)
              ((d2 :: t).map (fun d =>
                d.pageContent ++ '\n' :: '[' :: (d.source.getD "unknown".toList) ++ [']'])) := by
        simp [List.intercalate, List.intersperse]
      rw [hstep]
      intro hcon
      have := congrArg List.length hcon
      simp [List.length_append] at this

/-- Claim C8 (counterexample): the claim says `fetch_k` is clamped to `k`
whenever the configured value is smaller.  `get_retriever` passes the
fixed literal 35 with no clamp: requesting `k = 50` yields
`fetch_k = 35 < 50`. -/
theorem fetch_k_not_clamped :
    (get_retriever true 50 0 = Except.ok ⟨"mmr".toList, 50, 35, 0⟩) ∧
    ¬ (50 ≤ (35 : Nat)) := by
  exact ⟨rfl, by decide⟩

/-- Claim C8 (amended): `fetch_k` is the fixed literal 35, so the MMR
configuration satisfies `fetch_k ≥ k` exactly for requested `k ≤ 35` —
which covers every `k` the app can request (its slider range is 3..12) —
and no clamping occurs for larger `k`. -/
theorem fetch_k_fixed (k : Nat) (hk : k ≤ 35) (lm : ℚ) :
    ∃ cfg, get_retriever true k lm = Except.ok cfg ∧ cfg.fetchK = 35 ∧ k ≤ cfg.fetchK :=
  ⟨⟨"mmr".toList, k, 35, lm⟩, rfl, rfl, hk⟩

/-- Witness for the amended C8 theorem at the maximal slider value
`k = 12`. -/
theorem fetch_k_fixed_witness :
    ∃ cfg, get_retriever true 12 0 = Except.ok cfg ∧ cfg.fetchK = 35 ∧ 12 ≤ cfg.fetchK :=
  fetch_k_fixed 12 (by decide) 0

end TramMate
